import Mathlib

/-!
Verification of the slackmd conversion engine: a character-level state
machine translating Slack-flavoured markup into standard Markdown.
The definitions below are a shallow embedding of the state machine
(`stateMachine.ts`, full-feature variant) and its driver (`index.ts`).
Tokens are single characters; the result buffer is a `List Char`.
-/

/-- Embedding of the JavaScript regex `/\s/` character test used by the
predicates (space, tab, newline, vertical tab, form feed, carriage return
and the Unicode space separators matched by `\s`). -/
def isWhitespace (c : Char) : Bool :=
  c == ' ' || c == '\t' || c == '\n' || c.toNat == 11 || c.toNat == 12 || c == '\r' ||
  c.toNat == 0xa0 || c.toNat == 0x1680 ||
  (decide (0x2000 ≤ c.toNat) && decide (c.toNat ≤ 0x200a)) ||
  c.toNat == 0x2028 || c.toNat == 0x2029 || c.toNat == 0x202f ||
  c.toNat == 0x205f || c.toNat == 0x3000 || c.toNat == 0xfeff

/-- Embedding of the JavaScript regex `/\d/` test (ASCII digits). -/
def isDigitTok (c : Char) : Bool :=
  decide (48 ≤ c.toNat) && decide (c.toNat ≤ 57)

/-- The Slack bullet glyph `•`. -/
def bulletChar : Char := Char.ofNat 0x2022

/-- `/\s/.test(l[i] ?? "")`: whitespace test on an optional token
(the regex test on the empty string is `false`). -/
def wsAt (l : List Char) (i : Nat) : Bool :=
  match l[i]? with
  | some c => isWhitespace c
  | none => false

/-- `BasicStateKey` of the source: every state key except LINK and
SKIP_TOKENS. -/
inductive BasicKey where
  | TEXT | BOLD | ITALIC | STRIKETHROUGH | INLINE_CODE | CODE_BLOCK
  | BLOCKQUOTE | BULLET_LIST | END
deriving DecidableEq, BEq, Repr

/-- `parsingPhase` of the link state. -/
inductive Phase where
  | url | displayText | closing
deriving DecidableEq, BEq, Repr

/-- `StateData`: the tagged union of basic, link and skip-tokens states. -/
inductive StateData where
  | basic (state prevState : BasicKey)
  | link (url : List Char) (displayText : Option (List Char))
      (parsingPhase : Phase) (prevState : BasicKey)
  | skip (tokensToSkip : Nat) (nextState prevState : BasicKey)
deriving DecidableEq, Repr

/-- The `prevState` field, readable on every variant (as the JS property
access `currentState.prevState` is). -/
def StateData.prevState : StateData → BasicKey
  | .basic _ p => p
  | .link _ _ _ p => p
  | .skip _ _ p => p

/-- `StateMachineInput`: the position window handed to every handler. -/
structure Input where
  previousTokens : List Char
  currentToken : Char
  nextTokens : List Char
deriving DecidableEq, Repr

/-- `StateMachine` (logger dropped: it never influences the output). -/
structure Machine where
  currentState : StateData
  result : List Char
deriving DecidableEq, Repr

/-- `shouldEnterFormattedText`: current token is the marker, a later
marker occurrence exists, the token right after the opening marker is not
whitespace, and the token right before the matched (first) closing marker
is not whitespace. -/
def shouldEnterFormattedText (input : Input) (formatToken : Char) : Bool :=
  if input.currentToken != formatToken then false
  else
    match input.nextTokens.findIdx? (fun t => t == formatToken) with
    | none => false
    | some nextIdx =>
      if decide (0 < input.nextTokens.length) && wsAt input.nextTokens 0 then false
      else if decide (0 < nextIdx) && wsAt input.nextTokens (nextIdx - 1) then false
      else true

/-- `isCodeBlockStart`: a backtick followed by two more backticks. -/
def isCodeBlockStart (input : Input) : Bool :=
  if input.currentToken != '`' then false
  else if decide (input.nextTokens.length < 2) then false
  else if input.nextTokens[0]? != some '`' || input.nextTokens[1]? != some '`' then false
  else true

/-- `isLinkStart`: `<` with the next up-to-8 tokens spelling the start of
`http://` or `https://`. -/
def isLinkStart (input : Input) : Bool :=
  if input.currentToken != '<' then false
  else if input.nextTokens.isEmpty then false
  else
    let nextChars := input.nextTokens.take 8
    List.isPrefixOf "http://".data nextChars || List.isPrefixOf "https://".data nextChars

/-- `isBeginningOfLine`: no previous token, or the previous token is a
newline. -/
def isBeginningOfLine (input : Input) : Bool :=
  input.previousTokens.isEmpty || input.previousTokens.getLast? == some '\n'

/-- `isInlineCode`: a backtick not starting a triple-backtick run, with a
later backtick available. -/
def isInlineCode (input : Input) : Bool :=
  if input.currentToken != '`' then false
  else if decide (2 ≤ input.nextTokens.length) &&
       input.nextTokens[0]? == some '`' && input.nextTokens[1]? == some '`' then false
  else input.nextTokens.any (fun t => t == '`')

/-- `isBulletListMarker`: at the beginning of a line, a bullet glyph or an
asterisk immediately followed by a space. -/
def isBulletListMarker (input : Input) : Bool :=
  if !isBeginningOfLine input then false
  else if input.currentToken == bulletChar then true
  else input.currentToken == '*' && decide (0 < input.nextTokens.length) &&
    input.nextTokens[0]? == some ' '

/-- `isOrderedListMarker`: at the beginning of a line, a digit whose run
of following digits is ended by `.` then a space. -/
def isOrderedListMarker (input : Input) : Bool :=
  if !isBeginningOfLine input then false
  else if !isDigitTok input.currentToken then false
  else if decide (input.nextTokens.length < 2) then false
  else
    let i := (input.nextTokens.takeWhile isDigitTok).length
    decide (i < input.nextTokens.length - 1) &&
      input.nextTokens[i]? == some '.' && input.nextTokens[i + 1]? == some ' '

/-- `isHtmlEntity`: `&` followed by the remaining characters of the given
entity spelling. -/
def isHtmlEntity (input : Input) (entity : List Char) : Bool :=
  if input.currentToken != '&' then false
  else if decide (input.nextTokens.length < entity.length - 1) then false
  else List.isPrefixOf (entity.drop 1) input.nextTokens

/-- `handleSpecialCharacters`: decode `&gt;`, `&lt;`, `&amp;`, emitting
the decoded character and entering SKIP_TOKENS for the raw remainder;
`none` when no entity starts here. -/
def handleSpecialCharacters (res : List Char) (input : Input)
    (nextState prevState : BasicKey) : Option Machine :=
  if isHtmlEntity input "&gt;".data then
    some { currentState := .skip 3 nextState prevState, result := res ++ ['>'] }
  else if isHtmlEntity input "&lt;".data then
    some { currentState := .skip 3 nextState prevState, result := res ++ ['<'] }
  else if isHtmlEntity input "&amp;".data then
    some { currentState := .skip 4 nextState prevState, result := res ++ ['&'] }
  else none

/-- `createFormattedTextStateHandler`: the shared handler for BOLD,
ITALIC, STRIKETHROUGH and INLINE_CODE, parameterized by marker character
and emission repeat count. -/
def formattedTextHandler (stateKey : BasicKey) (formatToken : Char) (times : Nat)
    (sm : Machine) (input : Input) : Machine :=
  if input.currentToken == formatToken then
    { currentState := .basic
        (if 0 < input.nextTokens.length then sm.currentState.prevState else .END) stateKey,
      result := sm.result ++ List.replicate times formatToken }
  else if isLinkStart input then
    { currentState := .link [] none .url stateKey, result := sm.result }
  else
    match handleSpecialCharacters sm.result input stateKey stateKey with
    | some m => m
    | none =>
      { currentState := .basic stateKey sm.currentState.prevState,
        result := sm.result ++ [input.currentToken] }

/-- The TEXT state handler (`states.TEXT`). -/
def textHandler (sm : Machine) (input : Input) : Machine :=
  if isBeginningOfLine input && (input.currentToken == '>') then
    { currentState := .basic .BLOCKQUOTE .TEXT, result := sm.result ++ ['>'] }
  else if isBulletListMarker input then
    if input.currentToken == bulletChar then
      { currentState := .basic .BULLET_LIST .TEXT, result := sm.result ++ ['*'] }
    else if input.currentToken == '*' then
      { currentState := .basic .BULLET_LIST .TEXT, result := sm.result ++ ['*'] }
    else
      textDefault sm input
  else if isOrderedListMarker input then
    { currentState := .basic .BULLET_LIST .TEXT, result := sm.result ++ [input.currentToken] }
  else if isLinkStart input then
    { currentState := .link [] none .url .TEXT, result := sm.result }
  else if isCodeBlockStart input then
    { currentState := .skip 2 .CODE_BLOCK .TEXT,
      result := sm.result ++ ['`', '`', '`'] ++
        (if input.nextTokens[2]? == some '\n' then [] else ['\n']) }
  else if shouldEnterFormattedText input '*' then
    { currentState := .basic .BOLD .TEXT, result := sm.result ++ ['*', '*'] }
  else if shouldEnterFormattedText input '_' then
    { currentState := .basic .ITALIC .TEXT, result := sm.result ++ ['_'] }
  else if shouldEnterFormattedText input '~' then
    { currentState := .basic .STRIKETHROUGH .TEXT, result := sm.result ++ ['~', '~'] }
  else if isInlineCode input then
    { currentState := .basic .INLINE_CODE .TEXT, result := sm.result ++ ['`'] }
  else if input.currentToken == bulletChar then
    { currentState := .basic (if 0 < input.nextTokens.length then .TEXT else .END)
        (if 0 < input.nextTokens.length then sm.currentState.prevState else .TEXT),
      result := sm.result ++ ['*'] }
  else
    textDefault sm input
where
  /-- The tail of the TEXT handler: HTML entities, then the literal-copy
  fallback (END when the input is exhausted). -/
  textDefault (sm : Machine) (input : Input) : Machine :=
    match handleSpecialCharacters sm.result input .TEXT .TEXT with
    | some m => m
    | none =>
      { currentState := .basic (if 0 < input.nextTokens.length then .TEXT else .END)
          (if 0 < input.nextTokens.length then sm.currentState.prevState else .TEXT),
        result := sm.result ++ [input.currentToken] }

/-- The BULLET_LIST state handler (`states.BULLET_LIST`). -/
def bulletListHandler (sm : Machine) (input : Input) : Machine :=
  if input.currentToken == bulletChar then
    { currentState := .basic .BULLET_LIST sm.currentState.prevState,
      result := sm.result ++ ['*'] }
  else if input.currentToken == '\n' then
    let isFollowedByListItem :=
      match input.nextTokens with
      | [] => false
      | n0 :: ns =>
        isBulletListMarker ⟨input.previousTokens ++ [input.currentToken], n0, ns⟩ ||
        isOrderedListMarker ⟨input.previousTokens ++ [input.currentToken], n0, ns⟩
    if !isFollowedByListItem then
      { currentState := .basic .TEXT .BULLET_LIST,
        result := sm.result ++ ['\n'] ++
          (if input.nextTokens[0]? == some '\n' || input.nextTokens.isEmpty
           then [] else ['\n']) }
    else
      { currentState := .basic .BULLET_LIST sm.currentState.prevState,
        result := sm.result ++ [input.currentToken] }
  else if isLinkStart input then
    { currentState := .link [] none .url .BULLET_LIST, result := sm.result }
  else if shouldEnterFormattedText input '*' then
    { currentState := .basic .BOLD .BULLET_LIST, result := sm.result ++ ['*', '*'] }
  else if shouldEnterFormattedText input '_' then
    { currentState := .basic .ITALIC .BULLET_LIST, result := sm.result ++ ['_'] }
  else if shouldEnterFormattedText input '~' then
    { currentState := .basic .STRIKETHROUGH .BULLET_LIST, result := sm.result ++ ['~', '~'] }
  else if isInlineCode input then
    { currentState := .basic .INLINE_CODE .BULLET_LIST, result := sm.result ++ ['`'] }
  else
    match handleSpecialCharacters sm.result input .BULLET_LIST .BULLET_LIST with
    | some m => m
    | none =>
      { currentState := .basic .BULLET_LIST sm.currentState.prevState,
        result := sm.result ++ [input.currentToken] }

/-- The CODE_BLOCK state handler (`states.CODE_BLOCK`). -/
def codeBlockHandler (sm : Machine) (input : Input) : Machine :=
  if isCodeBlockStart input then
    { currentState := .skip 2 .TEXT .CODE_BLOCK,
      result := sm.result ++
        (if input.previousTokens.getLast? == some '\n' then [] else ['\n']) ++
        ['`', '`', '`'] }
  else if isLinkStart input then
    { currentState := .link [] none .url .CODE_BLOCK, result := sm.result }
  else
    match handleSpecialCharacters sm.result input .CODE_BLOCK .CODE_BLOCK with
    | some m => m
    | none =>
      { currentState := .basic .CODE_BLOCK sm.currentState.prevState,
        result := sm.result ++ [input.currentToken] }

/-- The BLOCKQUOTE state handler (`states.BLOCKQUOTE`). -/
def blockquoteHandler (sm : Machine) (input : Input) : Machine :=
  if input.currentToken == '\n' then
    let isFollowedByBlockquote := input.nextTokens[0]? == some '>'
    if !isFollowedByBlockquote then
      { currentState := .basic .TEXT .BLOCKQUOTE,
        result := sm.result ++ ['\n'] ++
          (if input.nextTokens[0]? == some '\n' then [] else ['\n']) }
    else
      { currentState := .basic .BLOCKQUOTE sm.currentState.prevState,
        result := sm.result ++ [input.currentToken] }
  else if isLinkStart input then
    { currentState := .link [] none .url .BLOCKQUOTE, result := sm.result }
  else if isCodeBlockStart input then
    { currentState := .skip 2 .CODE_BLOCK .BLOCKQUOTE,
      result := sm.result ++ ['`', '`', '`'] ++
        (if input.nextTokens[2]? == some '\n' then [] else ['\n']) }
  else if shouldEnterFormattedText input '*' then
    { currentState := .basic .BOLD .BLOCKQUOTE, result := sm.result ++ ['*', '*'] }
  else if shouldEnterFormattedText input '_' then
    { currentState := .basic .ITALIC .BLOCKQUOTE, result := sm.result ++ ['_'] }
  else if shouldEnterFormattedText input '~' then
    { currentState := .basic .STRIKETHROUGH .BLOCKQUOTE, result := sm.result ++ ['~', '~'] }
  else if isInlineCode input then
    { currentState := .basic .INLINE_CODE .BLOCKQUOTE, result := sm.result ++ ['`'] }
  else if input.currentToken == bulletChar then
    { currentState := .basic .BLOCKQUOTE sm.currentState.prevState,
      result := sm.result ++ ['*'] }
  else
    match handleSpecialCharacters sm.result input .BLOCKQUOTE .BLOCKQUOTE with
    | some m => m
    | none =>
      { currentState := .basic .BLOCKQUOTE sm.currentState.prevState,
        result := sm.result ++ [input.currentToken] }

/-- The LINK state handler (`states.LINK`); the source throws when the
tagged state is not the link variant, modelled as `Except.error`. -/
def linkHandler (sm : Machine) (input : Input) : Except Unit Machine :=
  match sm.currentState with
  | .link url displayText phase prev =>
    if input.currentToken == '>' then
      let dt := match displayText with
        | none => url
        | some d => if d.isEmpty then url else d
      .ok { currentState := .basic (if 0 < input.nextTokens.length then prev else .END) prev,
            result := sm.result ++ ['['] ++ dt ++ [']', '('] ++ url ++ [')'] }
    else if input.currentToken == '|' && phase == Phase.url then
      .ok { currentState := .link url (some []) .displayText prev, result := sm.result }
    else
      match phase with
      | .url =>
        .ok { currentState := .link (url ++ [input.currentToken]) displayText phase prev,
              result := sm.result }
      | .displayText =>
        .ok { currentState := .link url (some (displayText.getD [] ++ [input.currentToken]))
                phase prev,
              result := sm.result }
      | .closing => .ok sm
  | _ => .error ()

/-- The SKIP_TOKENS state handler (`states.SKIP_TOKENS`); the source
throws when the tagged state is not the skip variant. -/
def skipTokensHandler (sm : Machine) (_input : Input) : Except Unit Machine :=
  match sm.currentState with
  | .skip tokensToSkip nextState prevState =>
    if tokensToSkip ≤ 1 then
      .ok { currentState := .basic nextState prevState, result := sm.result }
    else
      .ok { currentState := .skip (tokensToSkip - 1) nextState prevState, result := sm.result }
  | _ => .error ()

/-- `getState` + handler application: dispatch on the current state's key
and run its handler; only LINK and SKIP_TOKENS can signal a fault. -/
def dispatch (sm : Machine) (input : Input) : Except Unit Machine :=
  match sm.currentState with
  | .link _ _ _ _ => linkHandler sm input
  | .skip _ _ _ => skipTokensHandler sm input
  | .basic k _ =>
    match k with
    | .TEXT => .ok (textHandler sm input)
    | .BOLD => .ok (formattedTextHandler .BOLD '*' 2 sm input)
    | .ITALIC => .ok (formattedTextHandler .ITALIC '_' 1 sm input)
    | .STRIKETHROUGH => .ok (formattedTextHandler .STRIKETHROUGH '~' 2 sm input)
    | .INLINE_CODE => .ok (formattedTextHandler .INLINE_CODE '`' 1 sm input)
    | .CODE_BLOCK => .ok (codeBlockHandler sm input)
    | .BLOCKQUOTE => .ok (blockquoteHandler sm input)
    | .BULLET_LIST => .ok (bulletListHandler sm input)
    | .END => .ok sm

/-- The driver's `try`/`catch`: on a handler fault, keep the state and
append the offending token verbatim. -/
def recover (sm : Machine) (input : Input) : Except Unit Machine → Machine
  | .ok m => m
  | .error _ => { sm with result := sm.result ++ [input.currentToken] }

/-- One driver iteration: dispatch, catching any handler fault. -/
def driverStep (sm : Machine) (input : Input) : Machine :=
  recover sm input (dispatch sm input)

/-- The driver's early-exit test `machine.currentState.state === "END"`. -/
def stateIsEND : StateData → Bool
  | .basic .END _ => true
  | _ => false

/-- The driver loop over the remaining tokens, `previousTokens` carried
explicitly; breaks after the iteration that reaches END. -/
def runAux : List Char → List Char → Machine → Machine
  | _, [], sm => sm
  | prev, c :: rest, sm =>
    let sm' := driverStep sm ⟨prev, c, rest⟩
    if stateIsEND sm'.currentState then sm'
    else runAux (prev ++ [c]) rest sm'

/-- The driver loop instrumented with its iteration count. -/
def runAuxCount : List Char → List Char → Machine → Machine × Nat
  | _, [], sm => (sm, 0)
  | prev, c :: rest, sm =>
    let sm' := driverStep sm ⟨prev, c, rest⟩
    if stateIsEND sm'.currentState then (sm', 1)
    else
      let r := runAuxCount (prev ++ [c]) rest sm'
      (r.1, r.2 + 1)

/-- `createStateMachine`: initial TEXT state, empty result. -/
def initMachine : Machine :=
  { currentState := .basic .TEXT .TEXT, result := [] }

/-- `slackMarkdownToMarkdown` on a token list. -/
def convert (s : List Char) : List Char :=
  (runAux [] s initMachine).result

/-- `slackMarkdownToMarkdown` on strings. -/
def convertStr (s : String) : String :=
  ⟨convert s.data⟩

example : convertStr "This *text* is bold" = "This **text** is bold" := by decide
example : convertStr "hey *this * should not be boldened" = "hey *this * should not be boldened" := by decide
example : convertStr "```const x = 10;```" = "```\nconst x = 10;\n```" := by decide
example : convertStr "<https://example.com|Example Website>" = "[Example Website](https://example.com)" := by decide
example : convertStr "This is &gt; than that" = "This is > than that" := by decide
example : convertStr "• Item 1\n• Item 2\nNormal text after" = "* Item 1\n* Item 2\n\nNormal text after" := by decide
example : convertStr "> This is a blockquote\nSome text after" = "> This is a blockquote\n\nSome text after" := by decide

/-! ### Predicate helper lemmas -/

@[simp] theorem StateData.prevState_basic (k p : BasicKey) :
    (StateData.basic k p).prevState = p := rfl

@[simp] theorem StateData.prevState_link (u : List Char) (d : Option (List Char))
    (ph : Phase) (p : BasicKey) : (StateData.link u d ph p).prevState = p := rfl

@[simp] theorem StateData.prevState_skip (n : Nat) (nx p : BasicKey) :
    (StateData.skip n nx p).prevState = p := rfl

theorem isPrefixOf_cons_ex {a : Char} {as bs : List Char}
    (h : List.isPrefixOf (a :: as) bs = true) :
    ∃ t, bs = a :: t ∧ List.isPrefixOf as t = true := by
  cases bs with
  | nil => simp [List.isPrefixOf] at h
  | cons b t =>
    simp only [List.isPrefixOf, Bool.and_eq_true, beq_iff_eq] at h
    exact ⟨t, by rw [h.1], h.2⟩

theorem isHtmlEntity_prefixOf {input : Input} {e : List Char}
    (h : isHtmlEntity input e = true) :
    List.isPrefixOf (e.drop 1) input.nextTokens = true := by
  simp only [isHtmlEntity] at h
  split at h
  · cases h
  · split at h
    · cases h
    · exact h

theorem isHtmlEntity_false_of_head {input : Input} {a : Char} {t e : List Char}
    (hn : input.nextTokens = a :: t) (b : Char) (r : List Char)
    (he : e.drop 1 = b :: r) (hne : b ≠ a) :
    isHtmlEntity input e = false := by
  simp only [isHtmlEntity]
  split
  · rfl
  · split
    · rfl
    · rw [he, hn]
      simp [List.isPrefixOf, hne]

theorem isHtmlEntity_curr {input : Input} {e : List Char}
    (h : isHtmlEntity input e = true) : input.currentToken = '&' := by
  by_cases hc : input.currentToken = '&'
  · exact hc
  · simp [isHtmlEntity, hc] at h

theorem isHtmlEntity_of_ne {input : Input} {e : List Char}
    (h : input.currentToken ≠ '&') : isHtmlEntity input e = false := by
  simp [isHtmlEntity, h]

theorem isCodeBlockStart_of_ne {input : Input}
    (h : input.currentToken ≠ '`') : isCodeBlockStart input = false := by
  simp [isCodeBlockStart, h]

theorem isLinkStart_of_ne {input : Input}
    (h : input.currentToken ≠ '<') : isLinkStart input = false := by
  simp [isLinkStart, h]

theorem isLinkStart_curr {input : Input}
    (h : isLinkStart input = true) : input.currentToken = '<' := by
  by_cases hc : input.currentToken = '<'
  · exact hc
  · simp [isLinkStart, hc] at h

theorem shouldEnterFormattedText_of_ne {input : Input} {t : Char}
    (h : input.currentToken ≠ t) : shouldEnterFormattedText input t = false := by
  simp [shouldEnterFormattedText, h]

theorem isInlineCode_of_ne {input : Input}
    (h : input.currentToken ≠ '`') : isInlineCode input = false := by
  simp [isInlineCode, h]

theorem isBulletListMarker_of_ne {input : Input}
    (h1 : input.currentToken ≠ bulletChar) (h2 : input.currentToken ≠ '*') :
    isBulletListMarker input = false := by
  simp [isBulletListMarker, h1, h2]

theorem isOrderedListMarker_of_ne {input : Input}
    (h : isDigitTok input.currentToken = false) :
    isOrderedListMarker input = false := by
  simp [isOrderedListMarker, h]

theorem handleSpecialCharacters_of_ne {res : List Char} {input : Input}
    {n p : BasicKey} (h : input.currentToken ≠ '&') :
    handleSpecialCharacters res input n p = none := by
  simp [handleSpecialCharacters, isHtmlEntity_of_ne h]

/-! ### C2 -/

/-- C2: the conversion never propagates a handler fault. Dispatching any
machine state on any position window yields a normal result (the only
handlers that can signal a fault, LINK and SKIP_TOKENS, are reached only
with a matching tagged state), and the driver's catch-branch keeps the
machine's state, appends the offending token verbatim to the result, and
lets the loop continue. -/
theorem dispatch_total_and_recovery :
    (∀ sm input, ∃ m, dispatch sm input = Except.ok m) ∧
    (∀ sm input e, recover sm input (Except.error e) =
      { sm with result := sm.result ++ [input.currentToken] }) := by
  constructor
  · intro sm input
    obtain ⟨st, res⟩ := sm
    cases st with
    | basic k p => cases k <;> exact ⟨_, rfl⟩
    | link u d ph pv =>
      simp only [dispatch, linkHandler]
      split
      · exact ⟨_, rfl⟩
      · split
        · exact ⟨_, rfl⟩
        · split <;> exact ⟨_, rfl⟩
    | skip n nx pv =>
      simp only [dispatch, skipTokensHandler]
      split <;> exact ⟨_, rfl⟩
  · intro sm input e
    rfl

/-! ### C7 -/

/-- C7: inside CODE_BLOCK, the formatting markers `*`, `_`, `~` are copied
to the output literally with the state unchanged; the HTML entities
`&gt;`, `&lt;`, `&amp;` are still decoded to `>`, `<`, `&` (entering the
skip state that resumes CODE_BLOCK); and link syntax is still recognized,
entering the LINK state that resumes CODE_BLOCK. -/
theorem codeBlock_literal_markers_entities_links :
    (∀ p res input c, (c = '*' ∨ c = '_' ∨ c = '~') → input.currentToken = c →
      codeBlockHandler ⟨.basic .CODE_BLOCK p, res⟩ input =
        ⟨.basic .CODE_BLOCK p, res ++ [c]⟩) ∧
    (∀ p res input, isHtmlEntity input "&gt;".data = true →
      codeBlockHandler ⟨.basic .CODE_BLOCK p, res⟩ input =
        ⟨.skip 3 .CODE_BLOCK .CODE_BLOCK, res ++ ['>']⟩) ∧
    (∀ p res input, isHtmlEntity input "&lt;".data = true →
      codeBlockHandler ⟨.basic .CODE_BLOCK p, res⟩ input =
        ⟨.skip 3 .CODE_BLOCK .CODE_BLOCK, res ++ ['<']⟩) ∧
    (∀ p res input, isHtmlEntity input "&amp;".data = true →
      codeBlockHandler ⟨.basic .CODE_BLOCK p, res⟩ input =
        ⟨.skip 4 .CODE_BLOCK .CODE_BLOCK, res ++ ['&']⟩) ∧
    (∀ p res input, isLinkStart input = true →
      codeBlockHandler ⟨.basic .CODE_BLOCK p, res⟩ input =
        ⟨.link [] none .url .CODE_BLOCK, res⟩) := by
  refine ⟨?_, ?_, ?_, ?_, ?_⟩
  · intro p res input c hc hcur
    have h1 : input.currentToken ≠ '`' := by
      rcases hc with h | h | h <;> simp [hcur, h]
    have h2 : input.currentToken ≠ '<' := by
      rcases hc with h | h | h <;> simp [hcur, h]
    have h3 : input.currentToken ≠ '&' := by
      rcases hc with h | h | h <;> simp [hcur, h]
    simp [codeBlockHandler, isCodeBlockStart_of_ne h1, isLinkStart_of_ne h2,
      handleSpecialCharacters_of_ne h3, hcur]
  · intro p res input h
    have hc := isHtmlEntity_curr h
    have h1 : input.currentToken ≠ '`' := by simp [hc]
    have h2 : input.currentToken ≠ '<' := by simp [hc]
    simp [codeBlockHandler, isCodeBlockStart_of_ne h1, isLinkStart_of_ne h2,
      handleSpecialCharacters, h]
  · intro p res input h
    have hc := isHtmlEntity_curr h
    have h1 : input.currentToken ≠ '`' := by simp [hc]
    have h2 : input.currentToken ≠ '<' := by simp [hc]
    have hp := isHtmlEntity_prefixOf h
    rw [show (("&lt;".data).drop 1) = ['l', 't', ';'] from rfl] at hp
    obtain ⟨t, ht, -⟩ := isPrefixOf_cons_ex hp
    have hgt : isHtmlEntity input "&gt;".data = false :=
      isHtmlEntity_false_of_head ht 'g' ['t', ';'] rfl (by decide)
    simp [codeBlockHandler, isCodeBlockStart_of_ne h1, isLinkStart_of_ne h2,
      handleSpecialCharacters, h, hgt]
  · intro p res input h
    have hc := isHtmlEntity_curr h
    have h1 : input.currentToken ≠ '`' := by simp [hc]
    have h2 : input.currentToken ≠ '<' := by simp [hc]
    have hp := isHtmlEntity_prefixOf h
    rw [show (("&amp;".data).drop 1) = ['a', 'm', 'p', ';'] from rfl] at hp
    obtain ⟨t, ht, -⟩ := isPrefixOf_cons_ex hp
    have hgt : isHtmlEntity input "&gt;".data = false :=
      isHtmlEntity_false_of_head ht 'g' ['t', ';'] rfl (by decide)
    have hlt : isHtmlEntity input "&lt;".data = false :=
      isHtmlEntity_false_of_head ht 'l' ['t', ';'] rfl (by decide)
    simp [codeBlockHandler, isCodeBlockStart_of_ne h1, isLinkStart_of_ne h2,
      handleSpecialCharacters, h, hgt, hlt]
  · intro p res input h
    have hc := isLinkStart_curr h
    have h1 : input.currentToken ≠ '`' := by simp [hc]
    simp [codeBlockHandler, isCodeBlockStart_of_ne h1, h]

/-! ### C1 -/

/-- C1: `shouldEnterFormattedText(window, t)` for a marker `t` in
`{*, _, ~}` is true iff the current token equals `t`, some later token in
`nextTokens` equals `t`, the token immediately after the current one (when
one exists) is not whitespace, and the token immediately before the first
later occurrence of `t` is not whitespace; consequently, when the
predicate is false for the current marker token, the TEXT handler copies
the marker character to the output literally. -/
theorem shouldEnterFormattedText_characterization :
    (∀ (input : Input) (t : Char), (t = '*' ∨ t = '_' ∨ t = '~') →
      (shouldEnterFormattedText input t = true ↔
        (input.currentToken = t ∧
         (∃ j, j < input.nextTokens.length ∧ input.nextTokens[j]? = some t) ∧
         (∀ c, input.nextTokens[0]? = some c → isWhitespace c = false) ∧
         (∀ j, j < input.nextTokens.length → input.nextTokens[j]? = some t →
           (∀ i, i < j → input.nextTokens[i]? ≠ some t) →
           ∀ k c, j = k + 1 → input.nextTokens[k]? = some c →
             isWhitespace c = false)))) ∧
    (∀ (p : BasicKey) (res : List Char) (input : Input) (t : Char),
      (t = '*' ∨ t = '_' ∨ t = '~') → input.currentToken = t →
      shouldEnterFormattedText input t = false →
      (textHandler ⟨.basic .TEXT p, res⟩ input).result = res ++ [t]) := by
  constructor
  · intro input t _ht
    constructor
    · intro h
      unfold shouldEnterFormattedText at h
      split at h
      · cases h
      · rename_i hne
        have hcur : input.currentToken = t := by simpa using hne
        cases hfind : input.nextTokens.findIdx? (fun x => x == t) with
        | none => simp only [hfind] at h; cases h
        | some nextIdx =>
          simp only [hfind] at h
          obtain ⟨hlt, hpt, hmin⟩ := List.findIdx?_eq_some_iff_getElem.mp hfind
          have hpt' : input.nextTokens[nextIdx] = t := by simpa using hpt
          by_cases hA : (decide (0 < input.nextTokens.length) &&
              wsAt input.nextTokens 0) = true
          · rw [if_pos hA] at h; cases h
          · rw [if_neg hA] at h
            by_cases hB : (decide (0 < nextIdx) &&
                wsAt input.nextTokens (nextIdx - 1)) = true
            · rw [if_pos hB] at h; cases h
            · have hA' := Bool.not_eq_true _ ▸ hA
              have hB' := Bool.not_eq_true _ ▸ hB
              refine ⟨hcur, ⟨nextIdx, hlt, by simp [List.getElem?_eq_getElem hlt, hpt']⟩,
                ?_, ?_⟩
              · intro c hc
                have hlen : 0 < input.nextTokens.length := by
                  obtain ⟨h1, -⟩ := List.getElem?_eq_some_iff.mp hc
                  omega
                simp [hlen] at hA'
                simpa [wsAt, hc] using hA'
              · intro j hj hjt hjmin k c hk hkc
                have hje : j = nextIdx := by
                  rcases Nat.lt_trichotomy j nextIdx with hl | he | hg
                  · exfalso
                    have hcon := hmin j hl
                    obtain ⟨h1, h2⟩ := List.getElem?_eq_some_iff.mp hjt
                    simp [h2] at hcon
                  · exact he
                  · exfalso
                    exact hjmin nextIdx hg (by simp [List.getElem?_eq_getElem hlt, hpt'])
                subst hje
                have h0 : 0 < j := by omega
                have hkj : k = j - 1 := by omega
                simp [h0] at hB'
                rw [hkj] at hkc
                simpa [wsAt, hkc] using hB'
    · rintro ⟨hcur, ⟨j0, hj0lt, hj0t⟩, hws0, hwsb⟩
      unfold shouldEnterFormattedText
      split
      · rename_i hne
        simp [hcur] at hne
      · cases hfind : input.nextTokens.findIdx? (fun x => x == t) with
        | none =>
          exfalso
          rw [List.findIdx?_eq_none_iff] at hfind
          have := hfind t (List.getElem?_mem hj0t)
          simp at this
        | some nextIdx =>
          simp only [hfind]
          obtain ⟨hlt, hpt, hmin⟩ := List.findIdx?_eq_some_iff_getElem.mp hfind
          have hpt' : input.nextTokens[nextIdx] = t := by simpa using hpt
          have hA : (decide (0 < input.nextTokens.length) &&
              wsAt input.nextTokens 0) = false := by
            cases h0 : input.nextTokens[0]? with
            | none => simp [wsAt, h0]
            | some c => simp [wsAt, h0, hws0 c h0]
          have hB : (decide (0 < nextIdx) &&
              wsAt input.nextTokens (nextIdx - 1)) = false := by
            by_cases h0 : 0 < nextIdx
            · have hjt : input.nextTokens[nextIdx]? = some t := by
                simp [List.getElem?_eq_getElem hlt, hpt']
              have hjmin : ∀ i, i < nextIdx → input.nextTokens[i]? ≠ some t := by
                intro i hi hcon
                have hcon2 := hmin i hi
                obtain ⟨h1, h2⟩ := List.getElem?_eq_some_iff.mp hcon
                simp [h2] at hcon2
              cases hkc : input.nextTokens[nextIdx - 1]? with
              | none => simp [wsAt, hkc]
              | some c =>
                have := hwsb nextIdx hlt hjt hjmin (nextIdx - 1) c (by omega) hkc
                simp [wsAt, hkc, this]
            · simp [h0]
          simp [hA, hB]
  · intro p res input t ht hcur hf
    have hbq : ¬(isBeginningOfLine input && (input.currentToken == '>')) = true := by
      rcases ht with rfl | rfl | rfl <;> simp [hcur]
    have hord : isOrderedListMarker input = false := by
      apply isOrderedListMarker_of_ne
      rcases ht with rfl | rfl | rfl <;> simp [hcur, isDigitTok]
    have hlk : isLinkStart input = false := by
      apply isLinkStart_of_ne
      rcases ht with rfl | rfl | rfl <;> simp [hcur]
    have hcb : isCodeBlockStart input = false := by
      apply isCodeBlockStart_of_ne
      rcases ht with rfl | rfl | rfl <;> simp [hcur]
    have hic : isInlineCode input = false := by
      apply isInlineCode_of_ne
      rcases ht with rfl | rfl | rfl <;> simp [hcur]
    have hglyph : ¬(input.currentToken == bulletChar) = true := by
      rcases ht with rfl | rfl | rfl <;> simp [hcur, bulletChar]
    have hamp : handleSpecialCharacters res input .TEXT .TEXT = none := by
      apply handleSpecialCharacters_of_ne
      rcases ht with rfl | rfl | rfl <;> simp [hcur]
    have hsb : ('*' : Char) ≠ bulletChar := by decide
    have hub : ('_' : Char) ≠ bulletChar := by decide
    have htb : ('~' : Char) ≠ bulletChar := by decide
    rcases ht with rfl | rfl | rfl
    · by_cases hb : isBulletListMarker input = true
      · simp [textHandler, hbq, hb, hglyph, hcur]
      · have hse_u : shouldEnterFormattedText input '_' = false :=
          shouldEnterFormattedText_of_ne (by simp [hcur])
        have hse_t : shouldEnterFormattedText input '~' = false :=
          shouldEnterFormattedText_of_ne (by simp [hcur])
        simp [textHandler, textHandler.textDefault, hbq, hb, hord, hlk, hcb, hf,
          hse_u, hse_t, hic, hglyph, hamp, hcur, hsb]
    · have hbm : isBulletListMarker input = false :=
        isBulletListMarker_of_ne (by simp [hcur, bulletChar]) (by simp [hcur])
      have hse_s : shouldEnterFormattedText input '*' = false :=
        shouldEnterFormattedText_of_ne (by simp [hcur])
      have hse_t : shouldEnterFormattedText input '~' = false :=
        shouldEnterFormattedText_of_ne (by simp [hcur])
      simp [textHandler, textHandler.textDefault, hbq, hbm, hord, hlk, hcb, hf,
        hse_s, hse_t, hic, hglyph, hamp, hcur, hub]
    · have hbm : isBulletListMarker input = false :=
        isBulletListMarker_of_ne (by simp [hcur, bulletChar]) (by simp [hcur])
      have hse_s : shouldEnterFormattedText input '*' = false :=
        shouldEnterFormattedText_of_ne (by simp [hcur])
      have hse_u : shouldEnterFormattedText input '_' = false :=
        shouldEnterFormattedText_of_ne (by simp [hcur])
      simp [textHandler, textHandler.textDefault, hbq, hbm, hord, hlk, hcb, hf,
        hse_s, hse_u, hic, hglyph, hamp, hcur, htb]

/-! ### C3 -/

theorem isCodeBlockStart_curr {input : Input}
    (h : isCodeBlockStart input = true) : input.currentToken = '`' := by
  by_cases hc : input.currentToken = '`'
  · exact hc
  · simp [isCodeBlockStart, hc] at h

/-- C3: on a 3-backtick fence, the TEXT handler emits the opening fence
followed by exactly one injected newline unless the token after the three
opening backticks is already a newline, and the CODE_BLOCK handler emits
exactly one newline before the closing fence unless the token preceding
it is already a newline; concretely, converting a fenced span with no
newlines gains exactly the two injected newlines, and a span already
holding them is returned unchanged. -/
theorem fence_newline_normalization :
    (∀ (p : BasicKey) (res : List Char) (input : Input), isCodeBlockStart input = true →
      textHandler ⟨.basic .TEXT p, res⟩ input =
        ⟨.skip 2 .CODE_BLOCK .TEXT,
         res ++ ['`', '`', '`'] ++
           (if input.nextTokens[2]? = some '\n' then [] else ['\n'])⟩) ∧
    (∀ (p : BasicKey) (res : List Char) (input : Input), isCodeBlockStart input = true →
      codeBlockHandler ⟨.basic .CODE_BLOCK p, res⟩ input =
        ⟨.skip 2 .TEXT .CODE_BLOCK,
         res ++ (if input.previousTokens.getLast? = some '\n' then [] else ['\n']) ++
           ['`', '`', '`']⟩) ∧
    convertStr "```const x = 10;```" = "```\nconst x = 10;\n```" ∧
    convertStr "```\nconst x = 10;\n```" = "```\nconst x = 10;\n```" := by
  refine ⟨?_, ?_, by decide, by decide⟩
  · intro p res input h
    have hcur := isCodeBlockStart_curr h
    have hbq : ¬(isBeginningOfLine input && (input.currentToken == '>')) = true := by
      simp [hcur]
    have hbm : isBulletListMarker input = false :=
      isBulletListMarker_of_ne (by simp [hcur, bulletChar]) (by simp [hcur])
    have hord : isOrderedListMarker input = false :=
      isOrderedListMarker_of_ne (by simp [hcur, isDigitTok])
    have hlk : isLinkStart input = false := isLinkStart_of_ne (by simp [hcur])
    simp [textHandler, hbq, hbm, hord, hlk, h]
  · intro p res input h
    simp [codeBlockHandler, h]

/-! ### C6 -/

/-- C6: closing a link on `>` emits `[text](url)` when display text was
accumulated (and `[url](url)` when none was), the consumed `<`, `|`, `>`
tokens are never copied to the output (entering LINK appends nothing, and
every non-`>` token processed inside LINK leaves the result unchanged),
and after the close the machine resumes the remembered prior state, or
END when no tokens remain. -/
theorem link_rewriting :
    (∀ (res url dt : List Char) (ph : Phase) (prev : BasicKey) (pt rest : List Char),
      dt ≠ [] →
      linkHandler ⟨.link url (some dt) ph prev, res⟩ ⟨pt, '>', rest⟩ =
        .ok ⟨.basic (if 0 < rest.length then prev else .END) prev,
             res ++ ['['] ++ dt ++ [']', '('] ++ url ++ [')']⟩) ∧
    (∀ (res url : List Char) (ph : Phase) (prev : BasicKey) (pt rest : List Char),
      linkHandler ⟨.link url none ph prev, res⟩ ⟨pt, '>', rest⟩ =
        .ok ⟨.basic (if 0 < rest.length then prev else .END) prev,
             res ++ ['['] ++ url ++ [']', '('] ++ url ++ [')']⟩) ∧
    (∀ (p : BasicKey) (res : List Char) (input : Input), isLinkStart input = true →
      textHandler ⟨.basic .TEXT p, res⟩ input = ⟨.link [] none .url .TEXT, res⟩) ∧
    (∀ (url : List Char) (dt : Option (List Char)) (ph : Phase) (prev : BasicKey)
       (res : List Char) (input : Input), input.currentToken ≠ '>' →
      ∃ u2 d2 p2, linkHandler ⟨.link url dt ph prev, res⟩ input =
        .ok ⟨.link u2 d2 p2 prev, res⟩) ∧
    convertStr "<https://example.com|Example Website>" = "[Example Website](https://example.com)" ∧
    convertStr "a <https://x> b" = "a [https://x](https://x) b" := by
  refine ⟨?_, ?_, ?_, ?_, by decide, by decide⟩
  · intro res url dt ph prev pt rest hdt
    simp [linkHandler, hdt]
  · intro res url ph prev pt rest
    simp [linkHandler]
  · intro p res input h
    have hcur := isLinkStart_curr h
    have hbq : ¬(isBeginningOfLine input && (input.currentToken == '>')) = true := by
      simp [hcur]
    have hbm : isBulletListMarker input = false :=
      isBulletListMarker_of_ne (by simp [hcur, bulletChar]) (by simp [hcur])
    have hord : isOrderedListMarker input = false :=
      isOrderedListMarker_of_ne (by simp [hcur, isDigitTok])
    simp [textHandler, hbq, hbm, hord, h]
  · intro url dt ph prev res input h
    by_cases hp : (input.currentToken == '|' && ph == Phase.url) = true
    · exact ⟨url, some [], .displayText, by simp [linkHandler, h, hp]⟩
    · cases ph with
      | url => exact ⟨url ++ [input.currentToken], dt, .url, by simp [linkHandler, h, hp]⟩
      | displayText =>
        exact ⟨url, some (dt.getD [] ++ [input.currentToken]), .displayText,
          by simp [linkHandler, h, hp]⟩
      | closing => exact ⟨url, dt, .closing, by simp [linkHandler, h, hp]⟩

/-! ### C10 -/

theorem linkHandler_stays {url : List Char} {dt : Option (List Char)} {ph : Phase}
    {prev : BasicKey} {res : List Char} {input : Input}
    (h : input.currentToken ≠ '>') :
    ∃ u2 d2 p2, linkHandler ⟨.link url dt ph prev, res⟩ input =
      .ok ⟨.link u2 d2 p2 prev, res⟩ := by
  by_cases hp : (input.currentToken == '|' && ph == Phase.url) = true
  · exact ⟨url, some [], .displayText, by simp [linkHandler, h, hp]⟩
  · cases ph with
    | url => exact ⟨url ++ [input.currentToken], dt, .url, by simp [linkHandler, h, hp]⟩
    | displayText =>
      exact ⟨url, some (dt.getD [] ++ [input.currentToken]), .displayText,
        by simp [linkHandler, h, hp]⟩
    | closing => exact ⟨url, dt, .closing, by simp [linkHandler, h, hp]⟩

/-- C10: once the machine is in the LINK state, a remainder of the input
containing no `>` is wholly absorbed into the link state's payload — the
run over those tokens leaves the result buffer exactly as it was at link
entry; concretely an unclosed link drops everything from `<` to the end. -/
theorem unclosed_link_swallows_tail :
    (∀ (rest prev url : List Char) (dt : Option (List Char)) (ph : Phase)
       (pv : BasicKey) (res : List Char), '>' ∉ rest →
      (runAux prev rest ⟨.link url dt ph pv, res⟩).result = res) ∧
    convertStr "see <https://x" = "see " := by
  refine ⟨?_, by decide⟩
  intro rest
  induction rest with
  | nil => intro prev url dt ph pv res _; rfl
  | cons c rest ih =>
    intro prev url dt ph pv res hmem
    have hc : c ≠ '>' := by
      intro hcc
      exact hmem (hcc ▸ List.mem_cons_self c rest)
    obtain ⟨u2, d2, p2, heq⟩ :=
      @linkHandler_stays url dt ph pv res ⟨prev, c, rest⟩ hc
    have hstep : driverStep ⟨.link url dt ph pv, res⟩ ⟨prev, c, rest⟩ =
        ⟨.link u2 d2 p2 pv, res⟩ := by
      simp [driverStep, dispatch, heq, recover]
    rw [runAux, hstep]
    simpa [stateIsEND] using
      ih (prev ++ [c]) u2 d2 p2 pv res (fun hx => hmem (List.mem_cons_of_mem c hx))

/-! ### C9 -/

theorem textHandler_plain {p : BasicKey} {res : List Char} {input : Input}
    (hchars : input.currentToken ∉ ['*', '_', '~', '`', '<', '>', '&', bulletChar])
    (hord : isOrderedListMarker input = false) :
    textHandler ⟨.basic .TEXT p, res⟩ input =
      ⟨.basic (if 0 < input.nextTokens.length then .TEXT else .END)
         (if 0 < input.nextTokens.length then p else .TEXT),
       res ++ [input.currentToken]⟩ := by
  simp only [List.mem_cons, not_or] at hchars
  obtain ⟨hs, hu, ht, hb, hlt, hgt, ha, hbc, -⟩ := hchars
  have hbq : ¬(isBeginningOfLine input && (input.currentToken == '>')) = true := by
    simp [hgt]
  have hbm : isBulletListMarker input = false := isBulletListMarker_of_ne hbc hs
  have hlk : isLinkStart input = false := isLinkStart_of_ne hlt
  have hcb : isCodeBlockStart input = false := isCodeBlockStart_of_ne hb
  have hses : shouldEnterFormattedText input '*' = false :=
    shouldEnterFormattedText_of_ne hs
  have hseu : shouldEnterFormattedText input '_' = false :=
    shouldEnterFormattedText_of_ne hu
  have hset : shouldEnterFormattedText input '~' = false :=
    shouldEnterFormattedText_of_ne ht
  have hic : isInlineCode input = false := isInlineCode_of_ne hb
  have hglyph : ¬(input.currentToken == bulletChar) = true := by simp [hbc]
  have hamp : handleSpecialCharacters res input .TEXT .TEXT = none :=
    handleSpecialCharacters_of_ne ha
  simp [textHandler, textHandler.textDefault, hbq, hbm, hord, hlk, hcb, hses,
    hseu, hset, hic, hglyph, hamp]

theorem runAux_plain (rest : List Char) :
    ∀ (prev : List Char) (p : BasicKey) (res : List Char),
    (∀ c ∈ rest, c ∉ ['*', '_', '~', '`', '<', '>', '&', bulletChar]) →
    (∀ k (h : k < rest.length),
      isOrderedListMarker ⟨prev ++ rest.take k, rest.get ⟨k, h⟩, rest.drop (k + 1)⟩ = false) →
    (runAux prev rest ⟨.basic .TEXT p, res⟩).result = res ++ rest := by
  induction rest with
  | nil => intro prev p res _ _; simp [runAux]
  | cons c rest ih =>
    intro prev p res hchars hord
    have hc := hchars c (List.mem_cons_self c rest)
    have h0 : isOrderedListMarker ⟨prev, c, rest⟩ = false := by
      have := hord 0 (by simp)
      simpa using this
    have hstep : driverStep ⟨.basic .TEXT p, res⟩ ⟨prev, c, rest⟩ =
        ⟨.basic (if 0 < rest.length then .TEXT else .END)
           (if 0 < rest.length then p else .TEXT), res ++ [c]⟩ := by
      show recover _ _ (.ok (textHandler ⟨.basic .TEXT p, res⟩ ⟨prev, c, rest⟩)) = _
      rw [textHandler_plain hc h0]
      rfl
    rw [runAux, hstep]
    cases rest with
    | nil => simp [stateIsEND]
    | cons d rest2 =>
      have hlen : 0 < (d :: rest2).length := by simp
      simp only [hlen, if_pos, stateIsEND]
      have ihy := ih (prev ++ [c]) p (res ++ [c])
        (fun x hx => hchars x (List.mem_cons_of_mem c hx))
        (fun k h => by
          have h2 := hord (k + 1) (by simpa using Nat.succ_lt_succ h)
          simp only [List.take_succ_cons, List.get_cons_succ, List.drop_succ_cons] at h2
          rw [List.append_cons] at h2
          exact h2)
      simpa using ihy

/-- C9: the empty string converts to the empty string, and any string
containing none of the markup characters `*`, `_`, `~`, backtick, `<`,
`>`, `&`, `•` and no position where an ordered-list marker (digits then
`.` then a space at line start) begins is returned unchanged. -/
theorem plain_text_identity :
    convert [] = [] ∧
    (∀ s : List Char,
      (∀ c ∈ s, c ∉ ['*', '_', '~', '`', '<', '>', '&', bulletChar]) →
      (∀ k (h : k < s.length),
        isOrderedListMarker ⟨s.take k, s.get ⟨k, h⟩, s.drop (k + 1)⟩ = false) →
      convert s = s) := by
  refine ⟨rfl, ?_⟩
  intro s h1 h2
  have := runAux_plain s [] .TEXT [] h1 (fun k h => by simpa using h2 k h)
  simpa [convert] using this

/-! ### C4 -/

/-- C4 counterexample: an input ending inside a blockquote with a final
newline gains a trailing blank line — `">a\n"` converts to `">a\n\n"`,
so the output does end with an added blank line. -/
theorem blockquote_trailing_blank_cex :
    convertStr ">a\n" = ">a\n\n" ∧ convertStr ">a\n" ≠ ">a\n" := by decide

/-- C4 (amended): when a blockquote or list ends at a newline whose next
line does not continue the construct, the machine exits to TEXT appending
one additional newline unless the next token is already a newline; for
bullet/ordered lists the additional newline is also suppressed when no
tokens remain, so a list that is the last content never gains a trailing
blank line, while a blockquote whose final newline ends the input does
gain one (only a blockquote ending without a final newline adds none). -/
theorem block_exit_spacing :
    (∀ (p : BasicKey) (res prev rest : List Char), rest[0]? ≠ some '>' →
      blockquoteHandler ⟨.basic .BLOCKQUOTE p, res⟩ ⟨prev, '\n', rest⟩ =
        ⟨.basic .TEXT .BLOCKQUOTE,
         res ++ ['\n'] ++ (if rest[0]? = some '\n' then [] else ['\n'])⟩) ∧
    (∀ (p : BasicKey) (res prev rest : List Char),
      (∀ n0 ns, rest = n0 :: ns →
        isBulletListMarker ⟨prev ++ ['\n'], n0, ns⟩ = false ∧
        isOrderedListMarker ⟨prev ++ ['\n'], n0, ns⟩ = false) →
      bulletListHandler ⟨.basic .BULLET_LIST p, res⟩ ⟨prev, '\n', rest⟩ =
        ⟨.basic .TEXT .BULLET_LIST,
         res ++ ['\n'] ++
           (if rest[0]? = some '\n' ∨ rest = [] then [] else ['\n'])⟩) ∧
    convertStr "• a\n" = "* a\n" ∧
    convertStr "1. a\n" = "1. a\n" ∧
    convertStr ">a" = ">a" := by
  refine ⟨?_, ?_, by decide, by decide, by decide⟩
  · intro p res prev rest h
    have hfb : ¬(rest[0]? == some '>') = true := by simpa using h
    by_cases hdn : rest[0]? = some '\n' <;>
      simp [blockquoteHandler, hfb, hdn]
  · intro p res prev rest h
    cases rest with
    | nil => simp [bulletListHandler, bulletChar]
    | cons n0 ns =>
      obtain ⟨hb, ho⟩ := h n0 ns rfl
      by_cases hdn : ((n0 :: ns) : List Char)[0]? = some '\n' <;>
        simp [bulletListHandler, bulletChar, hb, ho, hdn]

/-! ### C5 -/

/-- C5: evaluation of the engine at an `&gt;`-initiated line. The entity
is decoded in TEXT state via the SKIP_TOKENS path and the machine stays
in TEXT, so the line does not receive the blockquote treatment: no blank
line is inserted where the quote ends, unlike a literal `>` line. The
repository's own tests expect `"&gt; ..."` lines to behave exactly like
`"> ..."` lines, which produce the separating blank line. -/
theorem entity_quote_not_blockquote :
    convertStr "&gt; a\nb" = "> a\nb" ∧
    convertStr "> a\nb" = "> a\n\nb" ∧
    convertStr "&gt; Blockquote with HTML entity\nText after" =
      "> Blockquote with HTML entity\nText after" := by
  refine ⟨by decide, by decide, by decide⟩

/-! ### C8 -/

/-- Invariant of reachable non-terminal states: no END key is stored in a
position the machine could later jump to. -/
def okState : StateData → Prop
  | .basic k p => k ≠ .END ∧ p ≠ .END
  | .link _ _ _ p => p ≠ .END
  | .skip _ n p => n ≠ .END ∧ p ≠ .END

/-- After one driver iteration whose window has `rest` as remaining
tokens: END is reached only when `rest` is empty, and otherwise the
invariant is preserved. -/
def stepOK (rest : List Char) (m : Machine) : Prop :=
  (stateIsEND m.currentState = true → rest = []) ∧
  (stateIsEND m.currentState = false → okState m.currentState)

theorem stateIsEND_false_of_ok {st : StateData} (h : okState st) :
    stateIsEND st = false := by
  cases st with
  | basic k p => cases k <;> simp_all [stateIsEND, okState]
  | link u d ph pv => rfl
  | skip n nx pv => rfl

theorem stepOK_ok {rest : List Char} {m : Machine} (h : okState m.currentState) :
    stepOK rest m :=
  ⟨fun he => absurd he (by simp [stateIsEND_false_of_ok h]), fun _ => h⟩

theorem stepOK_of_state {rest : List Char} {m : Machine} (st : StateData)
    (hst : m.currentState = st) (h : okState st) : stepOK rest m :=
  stepOK_ok (by rw [hst]; exact h)

theorem stepOK_end_state {rest : List Char} {m : Machine} (p : BasicKey)
    (hst : m.currentState = .basic .END p) (hr : rest = []) : stepOK rest m :=
  ⟨fun _ => hr, fun hf => by rw [hst] at hf; simp [stateIsEND] at hf⟩

theorem eq_nil_of_not_pos {l : List Char} (h : ¬ 0 < l.length) : l = [] := by
  cases l with
  | nil => rfl
  | cons a t => simp at h

theorem handleSpecialCharacters_state {res : List Char} {input : Input}
    {n p : BasicKey} {m : Machine}
    (h : handleSpecialCharacters res input n p = some m) :
    ∃ cnt ch, m = ⟨.skip cnt n p, res ++ [ch]⟩ := by
  unfold handleSpecialCharacters at h
  split at h
  · exact ⟨3, '>', (Option.some.inj h).symm⟩
  · split at h
    · exact ⟨3, '<', (Option.some.inj h).symm⟩
    · split at h
      · exact ⟨4, '&', (Option.some.inj h).symm⟩
      · cases h

theorem textDefault_stepOK (k0 p : BasicKey) (res prev rest : List Char) (c : Char)
    (hp : p ≠ .END) :
    stepOK rest (textHandler.textDefault ⟨.basic k0 p, res⟩ ⟨prev, c, rest⟩) := by
  cases heq : handleSpecialCharacters res ⟨prev, c, rest⟩ .TEXT .TEXT with
  | some m =>
    obtain ⟨cnt, ch, rfl⟩ := handleSpecialCharacters_state heq
    exact stepOK_of_state (.skip cnt .TEXT .TEXT)
      (by simp [textHandler.textDefault, heq]) (by simp [okState])
  | none =>
    by_cases hr : 0 < rest.length
    · exact stepOK_of_state (.basic .TEXT p)
        (by simp [textHandler.textDefault, heq, hr]) (by simp [okState, hp])
    · exact stepOK_end_state .TEXT (by simp [textHandler.textDefault, heq, hr])
        (eq_nil_of_not_pos hr)

theorem textHandler_stepOK (k0 p : BasicKey) (res prev rest : List Char) (c : Char)
    (hp : p ≠ .END) :
    stepOK rest (textHandler ⟨.basic k0 p, res⟩ ⟨prev, c, rest⟩) := by
  by_cases hA : (isBeginningOfLine ⟨prev, c, rest⟩ && (c == '>')) = true
  · exact stepOK_of_state (.basic .BLOCKQUOTE .TEXT) (by simp [textHandler, hA]) (by simp [okState])
  · by_cases hB : isBulletListMarker ⟨prev, c, rest⟩ = true
    · by_cases hBa : c = bulletChar
      · subst hBa
        exact stepOK_of_state (.basic .BULLET_LIST .TEXT)
          (by simp [textHandler, hA, hB]) (by simp [okState])
      · by_cases hBb : c = '*'
        · subst hBb
          exact stepOK_of_state (.basic .BULLET_LIST .TEXT)
            (by simp [textHandler, hA, hB, hBa]) (by simp [okState])
        · have hred : textHandler ⟨.basic k0 p, res⟩ ⟨prev, c, rest⟩ =
              textHandler.textDefault ⟨.basic k0 p, res⟩ ⟨prev, c, rest⟩ := by
            simp [textHandler, hA, hB, hBa, hBb]
          rw [hred]
          exact textDefault_stepOK k0 p res prev rest c hp
    · by_cases hC : isOrderedListMarker ⟨prev, c, rest⟩ = true
      · exact stepOK_of_state (.basic .BULLET_LIST .TEXT) (by simp [textHandler, hA, hB, hC]) (by simp [okState])
      · by_cases hD : isLinkStart ⟨prev, c, rest⟩ = true
        · exact stepOK_of_state (.link [] none .url .TEXT)
            (by simp [textHandler, hA, hB, hC, hD]) (by simp [okState])
        · by_cases hE : isCodeBlockStart ⟨prev, c, rest⟩ = true
          · exact stepOK_of_state (.skip 2 .CODE_BLOCK .TEXT)
              (by simp [textHandler, hA, hB, hC, hD, hE]) (by simp [okState])
          · by_cases hF : shouldEnterFormattedText ⟨prev, c, rest⟩ '*' = true
            · exact stepOK_of_state (.basic .BOLD .TEXT)
                (by simp [textHandler, hA, hB, hC, hD, hE, hF]) (by simp [okState])
            · by_cases hG : shouldEnterFormattedText ⟨prev, c, rest⟩ '_' = true
              · exact stepOK_of_state (.basic .ITALIC .TEXT)
                  (by simp [textHandler, hA, hB, hC, hD, hE, hF, hG])
                  (by simp [okState])
              · by_cases hH : shouldEnterFormattedText ⟨prev, c, rest⟩ '~' = true
                · exact stepOK_of_state (.basic .STRIKETHROUGH .TEXT)
                    (by simp [textHandler, hA, hB, hC, hD, hE, hF, hG, hH])
                    (by simp [okState])
                · by_cases hI : isInlineCode ⟨prev, c, rest⟩ = true
                  · exact stepOK_of_state (.basic .INLINE_CODE .TEXT)
                      (by simp [textHandler, hA, hB, hC, hD, hE, hF, hG, hH, hI])
                      (by simp [okState])
                  · by_cases hJ : c = bulletChar
                    · subst hJ
                      by_cases hr : 0 < rest.length
                      · exact stepOK_of_state (.basic .TEXT p)
                          (by simp [textHandler, hA, hB, hC, hD, hE, hF, hG, hH,
                            hI, hr])
                          (by simp [okState, hp])
                      · exact stepOK_end_state .TEXT
                          (by simp [textHandler, hA, hB, hC, hD, hE, hF, hG, hH,
                            hI, hr])
                          (eq_nil_of_not_pos hr)
                    · have hred : textHandler ⟨.basic k0 p, res⟩ ⟨prev, c, rest⟩ =
                          textHandler.textDefault ⟨.basic k0 p, res⟩ ⟨prev, c, rest⟩ := by
                        simp [textHandler, hA, hB, hC, hD, hE, hF, hG, hH, hI, hJ]
                      rw [hred]
                      exact textDefault_stepOK k0 p res prev rest c hp

theorem bulletListHandler_stepOK (k0 p : BasicKey) (res prev rest : List Char) (c : Char)
    (hp : p ≠ .END) :
    stepOK rest (bulletListHandler ⟨.basic k0 p, res⟩ ⟨prev, c, rest⟩) := by
  by_cases hA : c = bulletChar
  · subst hA
    exact stepOK_of_state (.basic .BULLET_LIST p)
      (by simp [bulletListHandler]) (by simp [okState, hp])
  · by_cases hB : c = '\n'
    · subst hB
      cases rest with
      | nil =>
        exact stepOK_of_state (.basic .TEXT .BULLET_LIST)
          (by simp [bulletListHandler, bulletChar]) (by simp [okState])
      | cons n0 ns =>
        by_cases hF : (isBulletListMarker ⟨prev ++ ['\n'], n0, ns⟩ ||
            isOrderedListMarker ⟨prev ++ ['\n'], n0, ns⟩) = true
        · exact stepOK_of_state (.basic .BULLET_LIST p)
            (by simp [bulletListHandler, bulletChar, hF]) (by simp [okState, hp])
        · exact stepOK_of_state (.basic .TEXT .BULLET_LIST)
            (by simp [bulletListHandler, bulletChar, hF]) (by simp [okState])
    · by_cases hC : isLinkStart ⟨prev, c, rest⟩ = true
      · exact stepOK_of_state (.link [] none .url .BULLET_LIST)
          (by simp [bulletListHandler, hA, hB, hC]) (by simp [okState])
      · by_cases hD : shouldEnterFormattedText ⟨prev, c, rest⟩ '*' = true
        · exact stepOK_of_state (.basic .BOLD .BULLET_LIST)
            (by simp [bulletListHandler, hA, hB, hC, hD]) (by simp [okState])
        · by_cases hE : shouldEnterFormattedText ⟨prev, c, rest⟩ '_' = true
          · exact stepOK_of_state (.basic .ITALIC .BULLET_LIST)
              (by simp [bulletListHandler, hA, hB, hC, hD, hE]) (by simp [okState])
          · by_cases hG : shouldEnterFormattedText ⟨prev, c, rest⟩ '~' = true
            · exact stepOK_of_state (.basic .STRIKETHROUGH .BULLET_LIST)
                (by simp [bulletListHandler, hA, hB, hC, hD, hE, hG])
                (by simp [okState])
            · by_cases hI : isInlineCode ⟨prev, c, rest⟩ = true
              · exact stepOK_of_state (.basic .INLINE_CODE .BULLET_LIST)
                  (by simp [bulletListHandler, hA, hB, hC, hD, hE, hG, hI])
                  (by simp [okState])
              · cases heq : handleSpecialCharacters res ⟨prev, c, rest⟩
                    .BULLET_LIST .BULLET_LIST with
                | some m =>
                  obtain ⟨cnt, ch, rfl⟩ := handleSpecialCharacters_state heq
                  exact stepOK_of_state (.skip cnt .BULLET_LIST .BULLET_LIST)
                    (by simp [bulletListHandler, hA, hB, hC, hD, hE, hG, hI, heq])
                    (by simp [okState])
                | none =>
                  exact stepOK_of_state (.basic .BULLET_LIST p)
                    (by simp [bulletListHandler, hA, hB, hC, hD, hE, hG, hI, heq])
                    (by simp [okState, hp])

theorem codeBlockHandler_stepOK (k0 p : BasicKey) (res prev rest : List Char) (c : Char)
    (hp : p ≠ .END) :
    stepOK rest (codeBlockHandler ⟨.basic k0 p, res⟩ ⟨prev, c, rest⟩) := by
  by_cases hA : isCodeBlockStart ⟨prev, c, rest⟩ = true
  · exact stepOK_of_state (.skip 2 .TEXT .CODE_BLOCK)
      (by simp [codeBlockHandler, hA]) (by simp [okState])
  · by_cases hB : isLinkStart ⟨prev, c, rest⟩ = true
    · exact stepOK_of_state (.link [] none .url .CODE_BLOCK)
        (by simp [codeBlockHandler, hA, hB]) (by simp [okState])
    · cases heq : handleSpecialCharacters res ⟨prev, c, rest⟩ .CODE_BLOCK .CODE_BLOCK with
      | some m =>
        obtain ⟨cnt, ch, rfl⟩ := handleSpecialCharacters_state heq
        exact stepOK_of_state (.skip cnt .CODE_BLOCK .CODE_BLOCK)
          (by simp [codeBlockHandler, hA, hB, heq]) (by simp [okState])
      | none =>
        exact stepOK_of_state (.basic .CODE_BLOCK p)
          (by simp [codeBlockHandler, hA, hB, heq]) (by simp [okState, hp])

theorem blockquoteHandler_stepOK (k0 p : BasicKey) (res prev rest : List Char) (c : Char)
    (hp : p ≠ .END) :
    stepOK rest (blockquoteHandler ⟨.basic k0 p, res⟩ ⟨prev, c, rest⟩) := by
  by_cases hA : c = '\n'
  · subst hA
    by_cases hFB : (rest[0]? == some '>') = true
    · exact stepOK_of_state (.basic .BLOCKQUOTE p)
        (by simp [blockquoteHandler, hFB]) (by simp [okState, hp])
    · exact stepOK_of_state (.basic .TEXT .BLOCKQUOTE)
        (by simp [blockquoteHandler, hFB]) (by simp [okState])
  · by_cases hB : isLinkStart ⟨prev, c, rest⟩ = true
    · exact stepOK_of_state (.link [] none .url .BLOCKQUOTE)
        (by simp [blockquoteHandler, hA, hB]) (by simp [okState])
    · by_cases hC : isCodeBlockStart ⟨prev, c, rest⟩ = true
      · exact stepOK_of_state (.skip 2 .CODE_BLOCK .BLOCKQUOTE)
          (by simp [blockquoteHandler, hA, hB, hC]) (by simp [okState])
      · by_cases hD : shouldEnterFormattedText ⟨prev, c, rest⟩ '*' = true
        · exact stepOK_of_state (.basic .BOLD .BLOCKQUOTE)
            (by simp [blockquoteHandler, hA, hB, hC, hD]) (by simp [okState])
        · by_cases hE : shouldEnterFormattedText ⟨prev, c, rest⟩ '_' = true
          · exact stepOK_of_state (.basic .ITALIC .BLOCKQUOTE)
              (by simp [blockquoteHandler, hA, hB, hC, hD, hE]) (by simp [okState])
          · by_cases hG : shouldEnterFormattedText ⟨prev, c, rest⟩ '~' = true
            · exact stepOK_of_state (.basic .STRIKETHROUGH .BLOCKQUOTE)
                (by simp [blockquoteHandler, hA, hB, hC, hD, hE, hG])
                (by simp [okState])
            · by_cases hI : isInlineCode ⟨prev, c, rest⟩ = true
              · exact stepOK_of_state (.basic .INLINE_CODE .BLOCKQUOTE)
                  (by simp [blockquoteHandler, hA, hB, hC, hD, hE, hG, hI])
                  (by simp [okState])
              · by_cases hJ : c = bulletChar
                · subst hJ
                  exact stepOK_of_state (.basic .BLOCKQUOTE p)
                    (by simp [blockquoteHandler, hA, hB, hC, hD, hE, hG, hI])
                    (by simp [okState, hp])
                · cases heq : handleSpecialCharacters res ⟨prev, c, rest⟩
                      .BLOCKQUOTE .BLOCKQUOTE with
                  | some m =>
                    obtain ⟨cnt, ch, rfl⟩ := handleSpecialCharacters_state heq
                    exact stepOK_of_state (.skip cnt .BLOCKQUOTE .BLOCKQUOTE)
                      (by simp [blockquoteHandler, hA, hB, hC, hD, hE, hG, hI, hJ, heq])
                      (by simp [okState])
                  | none =>
                    exact stepOK_of_state (.basic .BLOCKQUOTE p)
                      (by simp [blockquoteHandler, hA, hB, hC, hD, hE, hG, hI, hJ, heq])
                      (by simp [okState, hp])

theorem formattedTextHandler_stepOK (sk : BasicKey) (ft : Char) (tm : Nat)
    (k0 p : BasicKey) (res prev rest : List Char) (c : Char)
    (hsk : sk ≠ .END) (hp : p ≠ .END) :
    stepOK rest (formattedTextHandler sk ft tm ⟨.basic k0 p, res⟩ ⟨prev, c, rest⟩) := by
  by_cases hA : c = ft
  · by_cases hr : 0 < rest.length
    · exact stepOK_of_state (.basic p sk)
        (by simp [formattedTextHandler, hA, hr]) (by simp [okState, hsk, hp])
    · exact stepOK_end_state sk
        (by simp [formattedTextHandler, hA, hr]) (eq_nil_of_not_pos hr)
  · by_cases hB : isLinkStart ⟨prev, c, rest⟩ = true
    · exact stepOK_of_state (.link [] none .url sk)
        (by simp [formattedTextHandler, hA, hB]) (by simp [okState, hsk])
    · cases heq : handleSpecialCharacters res ⟨prev, c, rest⟩ sk sk with
      | some m =>
        obtain ⟨cnt, ch, rfl⟩ := handleSpecialCharacters_state heq
        exact stepOK_of_state (.skip cnt sk sk)
          (by simp [formattedTextHandler, hA, hB, heq]) (by simp [okState, hsk])
      | none =>
        exact stepOK_of_state (.basic sk p)
          (by simp [formattedTextHandler, hA, hB, heq]) (by simp [okState, hsk, hp])

theorem link_driverStep_stepOK (u : List Char) (d : Option (List Char)) (ph : Phase)
    (pv : BasicKey) (res prev rest : List Char) (c : Char) (hpv : pv ≠ .END) :
    stepOK rest (driverStep ⟨.link u d ph pv, res⟩ ⟨prev, c, rest⟩) := by
  by_cases hA : c = '>'
  · by_cases hr : 0 < rest.length
    · exact stepOK_of_state (.basic pv pv)
        (by simp [driverStep, dispatch, recover, linkHandler, hA, hr])
        (by simp [okState, hpv])
    · exact stepOK_end_state pv
        (by simp [driverStep, dispatch, recover, linkHandler, hA, hr])
        (eq_nil_of_not_pos hr)
  · by_cases hB : (c == '|' && ph == Phase.url) = true
    · exact stepOK_of_state (.link u (some []) .displayText pv)
        (by simp [driverStep, dispatch, recover, linkHandler, hA, hB])
        (by simp [okState, hpv])
    · cases ph with
      | url =>
        exact stepOK_of_state (.link (u ++ [c]) d .url pv)
          (by simp [driverStep, dispatch, recover, linkHandler, hA, hB])
          (by simp [okState, hpv])
      | displayText =>
        exact stepOK_of_state (.link u (some (d.getD [] ++ [c])) .displayText pv)
          (by simp [driverStep, dispatch, recover, linkHandler, hA, hB])
          (by simp [okState, hpv])
      | closing =>
        exact stepOK_of_state (.link u d .closing pv)
          (by simp [driverStep, dispatch, recover, linkHandler, hA, hB])
          (by simp [okState, hpv])

theorem skip_driverStep_stepOK (n : Nat) (nx pv : BasicKey) (res prev rest : List Char)
    (c : Char) (hnx : nx ≠ .END) (hpv : pv ≠ .END) :
    stepOK rest (driverStep ⟨.skip n nx pv, res⟩ ⟨prev, c, rest⟩) := by
  by_cases hn : n ≤ 1
  · exact stepOK_of_state (.basic nx pv)
      (by simp [driverStep, dispatch, recover, skipTokensHandler, hn])
      (by simp [okState, hnx, hpv])
  · exact stepOK_of_state (.skip (n - 1) nx pv)
      (by simp [driverStep, dispatch, recover, skipTokensHandler, hn])
      (by simp [okState, hnx, hpv])

theorem driverStep_stepOK (st : StateData) (res prev rest : List Char) (c : Char)
    (h : okState st) : stepOK rest (driverStep ⟨st, res⟩ ⟨prev, c, rest⟩) := by
  cases st with
  | basic k p =>
    obtain ⟨hk, hp⟩ := h
    cases k with
    | END => exact absurd rfl hk
    | TEXT =>
      simp only [driverStep, dispatch, recover]
      exact textHandler_stepOK _ p res prev rest c hp
    | BOLD =>
      simp only [driverStep, dispatch, recover]
      exact formattedTextHandler_stepOK .BOLD '*' 2 _ p res prev rest c (by simp) hp
    | ITALIC =>
      simp only [driverStep, dispatch, recover]
      exact formattedTextHandler_stepOK .ITALIC '_' 1 _ p res prev rest c (by simp) hp
    | STRIKETHROUGH =>
      simp only [driverStep, dispatch, recover]
      exact formattedTextHandler_stepOK .STRIKETHROUGH '~' 2 _ p res prev rest c
        (by simp) hp
    | INLINE_CODE =>
      simp only [driverStep, dispatch, recover]
      exact formattedTextHandler_stepOK .INLINE_CODE '`' 1 _ p res prev rest c
        (by simp) hp
    | CODE_BLOCK =>
      simp only [driverStep, dispatch, recover]
      exact codeBlockHandler_stepOK _ p res prev rest c hp
    | BLOCKQUOTE =>
      simp only [driverStep, dispatch, recover]
      exact blockquoteHandler_stepOK _ p res prev rest c hp
    | BULLET_LIST =>
      simp only [driverStep, dispatch, recover]
      exact bulletListHandler_stepOK _ p res prev rest c hp
  | link u d ph pv => exact link_driverStep_stepOK u d ph pv res prev rest c h
  | skip n nx pv =>
    obtain ⟨hnx, hpv⟩ := h
    exact skip_driverStep_stepOK n nx pv res prev rest c hnx hpv

theorem runAuxCount_fst (rest : List Char) :
    ∀ (prev : List Char) (sm : Machine),
      (runAuxCount prev rest sm).1 = runAux prev rest sm := by
  induction rest with
  | nil => intro prev sm; rfl
  | cons c rest ih =>
    intro prev sm
    simp only [runAuxCount, runAux]
    by_cases hE : stateIsEND (driverStep sm ⟨prev, c, rest⟩).currentState = true
    · simp [hE]
    · simp [hE, ih]

theorem runAuxCount_length (rest : List Char) :
    ∀ (prev : List Char) (st : StateData) (res : List Char), okState st →
      (runAuxCount prev rest ⟨st, res⟩).2 = rest.length := by
  induction rest with
  | nil => intro prev st res _; rfl
  | cons c rest ih =>
    intro prev st res hok
    obtain ⟨hEnd, hKeep⟩ := driverStep_stepOK st res prev rest c hok
    simp only [runAuxCount]
    by_cases hE : stateIsEND (driverStep ⟨st, res⟩ ⟨prev, c, rest⟩).currentState = true
    · rw [if_pos hE]
      have hrest := hEnd hE
      simp [hrest]
    · rw [if_neg hE]
      have hok' := hKeep (by simpa using hE)
      cases hm : driverStep ⟨st, res⟩ ⟨prev, c, rest⟩ with
      | mk st' res' =>
        rw [hm] at hok'
        simp [ih (prev ++ [c]) st' res' hok']

/-- C8: the driver executes exactly one iteration per input token — the
instrumented loop's iteration count equals the input length (END is only
entered while processing the final token, so the early break never skips
a token), and the instrumented loop computes the same final machine as
the driver loop itself. -/
theorem driver_iteration_count :
    ∀ s : List Char,
      (runAuxCount [] s initMachine).2 = s.length ∧
      (runAuxCount [] s initMachine).1 = runAux [] s initMachine := by
  intro s
  exact ⟨runAuxCount_length s [] (.basic .TEXT .TEXT) [] (by simp [okState]),
    runAuxCount_fst s [] initMachine⟩

/-! ### Witnesses -/

/-- Witness for C1 at concrete inputs: `"*a*"` seen at the opening `*`
satisfies the characterization, and a lone `*` with no later occurrence
is copied literally. -/
theorem shouldEnterFormattedText_characterization_witness :
    ((⟨[], '*', ['a', '*']⟩ : Input).currentToken = '*' ∧
     (∃ j, j < (⟨[], '*', ['a', '*']⟩ : Input).nextTokens.length ∧
        (⟨[], '*', ['a', '*']⟩ : Input).nextTokens[j]? = some '*') ∧
     (∀ c, (⟨[], '*', ['a', '*']⟩ : Input).nextTokens[0]? = some c →
        isWhitespace c = false) ∧
     (∀ j, j < (⟨[], '*', ['a', '*']⟩ : Input).nextTokens.length →
       (⟨[], '*', ['a', '*']⟩ : Input).nextTokens[j]? = some '*' →
       (∀ i, i < j → (⟨[], '*', ['a', '*']⟩ : Input).nextTokens[i]? ≠ some '*') →
       ∀ k c, j = k + 1 → (⟨[], '*', ['a', '*']⟩ : Input).nextTokens[k]? = some c →
         isWhitespace c = false)) ∧
    (textHandler ⟨.basic .TEXT .TEXT, []⟩ ⟨[], '*', ['a']⟩).result = [] ++ ['*'] :=
  ⟨(shouldEnterFormattedText_characterization.1 ⟨[], '*', ['a', '*']⟩ '*'
      (Or.inl rfl)).mp (by decide),
   shouldEnterFormattedText_characterization.2 .TEXT [] ⟨[], '*', ['a']⟩ '*'
      (Or.inl rfl) rfl (by decide)⟩

/-- Witness for C3 at concrete fences: opening fence before `x` injects a
newline; closing fence after `a` injects a newline. -/
theorem fence_newline_normalization_witness :
    textHandler ⟨.basic .TEXT .TEXT, []⟩ ⟨[], '`', ['`', '`', 'x']⟩ =
      ⟨.skip 2 .CODE_BLOCK .TEXT,
       [] ++ ['`', '`', '`'] ++
         (if (⟨[], '`', ['`', '`', 'x']⟩ : Input).nextTokens[2]? = some '\n'
          then [] else ['\n'])⟩ ∧
    codeBlockHandler ⟨.basic .CODE_BLOCK .TEXT, []⟩ ⟨['a'], '`', ['`', '`']⟩ =
      ⟨.skip 2 .TEXT .CODE_BLOCK,
       [] ++ (if (⟨['a'], '`', ['`', '`']⟩ : Input).previousTokens.getLast? = some '\n'
              then [] else ['\n']) ++ ['`', '`', '`']⟩ :=
  ⟨fence_newline_normalization.1 .TEXT [] ⟨[], '`', ['`', '`', 'x']⟩ (by decide),
   fence_newline_normalization.2.1 .TEXT [] ⟨['a'], '`', ['`', '`']⟩ (by decide)⟩

/-- Witness for C4 (amended) at concrete exits: a blockquote newline with
following text, and a list newline at the very end of the input. -/
theorem block_exit_spacing_witness :
    blockquoteHandler ⟨.basic .BLOCKQUOTE .TEXT, []⟩ ⟨['a'], '\n', ['b']⟩ =
      ⟨.basic .TEXT .BLOCKQUOTE,
       [] ++ ['\n'] ++ (if (['b'] : List Char)[0]? = some '\n' then [] else ['\n'])⟩ ∧
    bulletListHandler ⟨.basic .BULLET_LIST .TEXT, []⟩ ⟨['a'], '\n', []⟩ =
      ⟨.basic .TEXT .BULLET_LIST,
       [] ++ ['\n'] ++
         (if (([] : List Char))[0]? = some '\n' ∨ ([] : List Char) = []
          then [] else ['\n'])⟩ :=
  ⟨block_exit_spacing.1 .TEXT [] ['a'] ['b'] (by decide),
   block_exit_spacing.2.1 .TEXT [] ['a'] [] (fun n0 ns h => nomatch h)⟩

/-- Witness for C6 at a concrete link close with display text `t` and
url `u`, and a non-closing token inside a link. -/
theorem link_rewriting_witness :
    linkHandler ⟨.link ['u'] (some ['t']) .displayText .TEXT, []⟩ ⟨[], '>', []⟩ =
      .ok ⟨.basic (if 0 < ([] : List Char).length then .TEXT else .END) .TEXT,
           [] ++ ['['] ++ ['t'] ++ [']', '('] ++ ['u'] ++ [')']⟩ ∧
    textHandler ⟨.basic .TEXT .TEXT, []⟩
        ⟨[], '<', ['h', 't', 't', 'p', ':', '/', '/', 'x']⟩ =
      ⟨.link [] none .url .TEXT, []⟩ :=
  ⟨link_rewriting.1 [] ['u'] ['t'] .displayText .TEXT [] [] (by decide),
   link_rewriting.2.2.1 .TEXT [] ⟨[], '<', ['h', 't', 't', 'p', ':', '/', '/', 'x']⟩
     (by decide)⟩

/-- Witness for C7 at concrete code-block tokens: a literal `*`, the
entity `&gt;`, and a link start. -/
theorem codeBlock_literal_markers_witness :
    codeBlockHandler ⟨.basic .CODE_BLOCK .TEXT, []⟩ ⟨[], '*', []⟩ =
      ⟨.basic .CODE_BLOCK .TEXT, [] ++ ['*']⟩ ∧
    codeBlockHandler ⟨.basic .CODE_BLOCK .TEXT, []⟩ ⟨[], '&', ['g', 't', ';']⟩ =
      ⟨.skip 3 .CODE_BLOCK .CODE_BLOCK, [] ++ ['>']⟩ ∧
    codeBlockHandler ⟨.basic .CODE_BLOCK .TEXT, []⟩
        ⟨[], '<', ['h', 't', 't', 'p', ':', '/', '/', 'x']⟩ =
      ⟨.link [] none .url .CODE_BLOCK, []⟩ :=
  ⟨codeBlock_literal_markers_entities_links.1 .TEXT [] ⟨[], '*', []⟩ '*'
      (Or.inl rfl) rfl,
   codeBlock_literal_markers_entities_links.2.1 .TEXT [] ⟨[], '&', ['g', 't', ';']⟩
      (by decide),
   codeBlock_literal_markers_entities_links.2.2.2.2 .TEXT []
      ⟨[], '<', ['h', 't', 't', 'p', ':', '/', '/', 'x']⟩ (by decide)⟩

/-- Witness for C9 on a concrete markup-free string. -/
theorem plain_text_identity_witness :
    convert "plain text".data = "plain text".data :=
  plain_text_identity.2 "plain text".data (by decide) (by decide)

/-- Witness for C10: a link state absorbing a `>`-free remainder leaves
the result untouched. -/
theorem unclosed_link_swallows_tail_witness :
    (runAux [] ['a', 'b'] ⟨.link [] none .url .TEXT, ['x']⟩).result = ['x'] :=
  unclosed_link_swallows_tail.1 ['a', 'b'] [] [] none .url .TEXT ['x'] (by decide)
